import Mathlib

/-!
Verification of the sales-forecasting dashboard core pipeline
(`src/App.js`): synthetic series generation, forecast simulation,
model evaluation, and inventory recommendation.

Modelling conventions:
* A calendar date (the JS `Date` at UTC midnight, serialized as the
  `YYYY-MM-DD` string `ds`) is represented by its epoch-day number
  (`Int`, days since 1970-01-01).  The ISO string formatting used as
  join key in the source is injective per day, so equality of `ds`
  strings corresponds to equality of epoch days.
* JS numbers are idealized as real numbers; `Math.round x` is
  `⌊x + 1/2⌋`, `Math.max` is `max`.
* `Math.random` draws inside the generator are modelled by an explicit
  per-day noise function passed as an argument.
* The unchecked access `historicalData[historicalData.length - 1].ds`
  in `simulateProphetForecast` throws on an empty history; the
  simulator is therefore embedded with result type `Option`.
-/

namespace SalesDash

/-- JS `Math.round`: round half toward positive infinity. -/
noncomputable def jsRound (x : ℝ) : Int := ⌊x + 1/2⌋

/-- Epoch-day number of a civil date (days since 1970-01-01),
Gregorian calendar (Howard Hinnant's civil-from-days algorithm;
`Int` division is floor division for positive divisors). -/
def daysFromCivil (y m d : Int) : Int :=
  let yAdj := if m ≤ 2 then y - 1 else y
  let era := yAdj / 400
  let yoe := yAdj - era * 400
  let mp := if m ≤ 2 then m + 9 else m - 3
  let doy := (153 * mp + 2) / 5 + d - 1
  let doe := yoe * 365 + yoe / 4 - yoe / 100 + doy
  era * 146097 + doe - 719468

/-- Civil year containing a given epoch day. -/
def yearOfDay (z : Int) : Int :=
  let z2 := z + 719468
  let era := z2 / 146097
  let doe := z2 - era * 146097
  let yoe := (doe - doe / 1460 + doe / 36524 - doe / 146096) / 365
  let y := yoe + era * 400
  let doy := doe - (365 * yoe + yoe / 4 - yoe / 100)
  let mp := (5 * doy + 2) / 153
  if 10 ≤ mp then y + 1 else y

/-- JS `Math.floor((date - new Date(date.getFullYear(), 0, 0)) / 86400000)`:
the 1-based ordinal day of the date within its calendar year. -/
def dayOfYear (z : Int) : Int := z - daysFromCivil (yearOfDay z) 1 1 + 1

/-- JS `date.getDay()` at UTC: 0 = Sunday .. 6 = Saturday
(1970-01-01 was a Thursday, day number 4). -/
def dayOfWeek (z : Int) : Int := (z + 4) % 7

/-- Yearly seasonality used by both the generator and the simulator:
`10 * Math.sin(dayOfYear * (2 * Math.PI / 365))`. -/
noncomputable def yearlySeasonalityAt (z : Int) : ℝ :=
  10 * Real.sin ((dayOfYear z : ℝ) * (2 * Real.pi / 365))

/-- Weekly seasonality used by both the generator and the simulator:
15 on Saturday or Sunday, 0 otherwise. -/
def weeklySeasonalityAt (z : Int) : ℝ :=
  if dayOfWeek z = 0 ∨ dayOfWeek z = 6 then 15 else 0

/-- One historical sales record: `{ ds, y }` of the source. -/
structure SalesRecord where
  ds : Int
  y : Int
  deriving DecidableEq, Repr, Inhabited

/-- One forecast record produced by `simulateProphetForecast`. -/
structure ForecastRecord where
  ds : Int
  yhat : Int
  yhat_lower : Int
  yhat_upper : Int
  trend : Int
  yearly_seasonality : Int
  weekly_seasonality : Int
  deriving DecidableEq, Repr, Inhabited

/-- Result of `evaluateModel`. -/
structure EvalResult where
  mae : ℝ
  rmse : ℝ

/-- One inventory recommendation produced by
`calculateInventoryRecommendations`. -/
structure InventoryRec where
  ds : Int
  yhat : Int
  recommended_inventory : Int
  deriving DecidableEq, Repr, Inhabited

/-- `generateSyntheticSalesData(startDateStr, endDateStr)` of the source.
The while loop collects the days `start, start+1, …, end` (empty when
`start > end`); record `i` combines base 100, the linear trend
`(i / numDays) * 50`, yearly and weekly seasonality of the day, and the
day's noise draw, clamped at 0 after rounding. -/
noncomputable def generateSyntheticSalesData (startD endD : Int) (noise : ℕ → ℝ) :
    List SalesRecord :=
  let numDays := (endD - startD + 1).toNat
  (List.range numDays).map (fun (i : ℕ) =>
    { ds := startD + (i : Int)
      y := max 0 (jsRound ((100 : ℝ) + ((i : ℝ) / (numDays : ℝ)) * 50
            + yearlySeasonalityAt (startD + (i : Int))
            + weeklySeasonalityAt (startD + (i : Int))
            + noise i)) })

/-- `historicalData[len-1]` for a history known nonempty by its shape. -/
def lastRecordOf (first : SalesRecord) (rest : List SalesRecord) : SalesRecord :=
  (first :: rest).getLast (List.cons_ne_nil first rest)

/-- The `historicalTrendEnd` scalar of `simulateProphetForecast`:
`(last.y - first.y) / length` when the history has more than one
record, else 0. -/
noncomputable def historicalTrendEnd (hist : List SalesRecord) (lastRec : SalesRecord) : ℝ :=
  if 1 < hist.length then
    ((lastRec.y : ℝ) - (hist.headI.y : ℝ)) / (hist.length : ℝ)
  else 0

/-- The raw `simulatedTrend` of `simulateProphetForecast` at future day `d`:
`last.y + (d - lastDate) * historicalTrendEnd * 0.1`. -/
noncomputable def simulatedTrendRaw (hist : List SalesRecord) (lastRec : SalesRecord)
    (d : Int) : ℝ :=
  (lastRec.y : ℝ) + ((d - lastRec.ds : Int) : ℝ) * historicalTrendEnd hist lastRec * 0.1

/-- The raw `yhat` of `simulateProphetForecast` at future day `d`, before
rounding and clamping. -/
noncomputable def yhatRaw (hist : List SalesRecord) (lastRec : SalesRecord) (d : Int) : ℝ :=
  simulatedTrendRaw hist lastRec d + yearlySeasonalityAt d + weeklySeasonalityAt d

/-- The forecast record built for one future day `d` inside
`simulateProphetForecast` (`uncertainty = 5`; the bounds are computed
from the raw `yhat` before it is itself rounded and clamped). -/
noncomputable def forecastRecord (hist : List SalesRecord) (lastRec : SalesRecord)
    (d : Int) : ForecastRecord :=
  { ds := d
    yhat := max 0 (jsRound (yhatRaw hist lastRec d))
    yhat_lower := max 0 (jsRound (yhatRaw hist lastRec d - 5))
    yhat_upper := jsRound (yhatRaw hist lastRec d + 5)
    trend := jsRound (simulatedTrendRaw hist lastRec d)
    yearly_seasonality := jsRound (yearlySeasonalityAt d)
    weekly_seasonality := jsRound (weeklySeasonalityAt d) }

/-- `simulateProphetForecast(historicalData, forecastPeriods)` of the source.
On an empty history the unchecked access to the last record throws
(`none` here).  Otherwise the future dates are the `forecastPeriods`
days immediately after the last historical date. -/
noncomputable def simulateProphetForecast :
    List SalesRecord → ℕ → Option (List ForecastRecord)
  | [], _ => none
  | first :: rest, forecastPeriods =>
      some (((List.range forecastPeriods).map
          (fun (i : ℕ) => (lastRecordOf first rest).ds + 1 + (i : Int))).map
        (forecastRecord (first :: rest) (lastRecordOf first rest)))

/-- `evaluateModel(actuals, predictions)` of the source: inner join of the
two sequences on `ds` (first matching prediction per actual), MAE and
RMSE over the joined pairs, `{0, 0}` when the join is empty. -/
noncomputable def evaluateModel (actuals : List SalesRecord)
    (predictions : List ForecastRecord) : EvalResult :=
  let mergedData := actuals.filterMap (fun item =>
    (predictions.find? (fun p => p.ds == item.ds)).map
      (fun p => ((item.y : ℝ), (p.yhat : ℝ))))
  if mergedData.length = 0 then { mae := 0, rmse := 0 }
  else
    { mae := (mergedData.map (fun ap => |ap.1 - ap.2|)).sum / (mergedData.length : ℝ)
      rmse := Real.sqrt
        ((mergedData.map (fun ap => (ap.1 - ap.2) ^ 2)).sum / (mergedData.length : ℝ)) }

/-- `calculateInventoryRecommendations(forecasts, safetyFactor)` of the
source: `recommended_inventory = round(yhat + yhat * safetyFactor)`,
one output record per forecast record, no validation of the factor. -/
noncomputable def calculateInventoryRecommendations (forecasts : List ForecastRecord)
    (safetyFactor : ℝ) : List InventoryRec :=
  forecasts.map (fun f =>
    { ds := f.ds
      yhat := f.yhat
      recommended_inventory := jsRound ((f.yhat : ℝ) + (f.yhat : ℝ) * safetyFactor) })

/-! ### Helper lemmas -/

lemma jsRound_mono {x y : ℝ} (h : x ≤ y) : jsRound x ≤ jsRound y :=
  Int.floor_le_floor (by linarith)

lemma jsRound_add_intCast (x : ℝ) (n : Int) : jsRound (x + (n : ℝ)) = jsRound x + n := by
  unfold jsRound
  rw [add_right_comm, Int.floor_add_int]

lemma jsRound_zero : jsRound (0 : ℝ) = 0 := by
  unfold jsRound
  rw [zero_add, Int.floor_eq_zero_iff, Set.mem_Ico]
  norm_num

lemma jsRound_intCast (n : Int) : jsRound (n : ℝ) = n := by
  have h := jsRound_add_intCast 0 n
  simp only [zero_add] at h
  rw [h, jsRound_zero, zero_add]

lemma jsRound_nonneg {x : ℝ} (h : 0 ≤ x) : 0 ≤ jsRound x :=
  Int.floor_nonneg.mpr (by linarith)

lemma jsRound_max_zero (x : ℝ) : jsRound (max 0 x) = max 0 (jsRound x) := by
  rcases le_total x 0 with hx | hx
  · have hle : jsRound x ≤ 0 := by
      have h := jsRound_mono hx
      rwa [jsRound_zero] at h
    rw [max_eq_left hx, jsRound_zero, eq_comm, max_eq_left hle]
  · rw [max_eq_right hx, max_eq_right (jsRound_nonneg hx)]

/-- Sanity check of the date model: the epoch day of 1970-01-01 is 0. -/
lemma daysFromCivil_epoch : daysFromCivil 1970 1 1 = 0 := by decide

/-- Sanity check of the date model: 1970-01-01 was a Thursday. -/
lemma dayOfWeek_epoch : dayOfWeek 0 = 4 := by decide

/-- Sanity check of the date model: 2024-01-01 is epoch day 19723. -/
lemma daysFromCivil_20240101 : daysFromCivil 2024 1 1 = 19723 := by decide

/-- Sanity check of the date model: 2024-01-02 has ordinal day 2 in its
year. -/
lemma dayOfYear_20240102 : dayOfYear (daysFromCivil 2024 1 2) = 2 := by decide

/-- Sanity check of the date model: 2024 is a leap year with 366 days. -/
lemma dayOfYear_20241231 : dayOfYear (daysFromCivil 2024 12 31) = 366 := by decide

/-- Sanity check of the date model: 2023 is a common year with 365 days. -/
lemma dayOfYear_20231231 : dayOfYear (daysFromCivil 2023 12 31) = 365 := by decide

/-- When no actual record's DateKey matches any prediction's DateKey, the
inner join inside `evaluateModel` is empty and the result is `{0, 0}`. -/
lemma evaluateModel_of_disjoint (actuals : List SalesRecord)
    (predictions : List ForecastRecord)
    (h : ∀ a ∈ actuals, ∀ p ∈ predictions, a.ds ≠ p.ds) :
    evaluateModel actuals predictions = ⟨0, 0⟩ := by
  have hmerged : actuals.filterMap (fun item =>
      (predictions.find? (fun p => p.ds == item.ds)).map
        (fun p => ((item.y : ℝ), (p.yhat : ℝ)))) = [] := by
    rw [List.filterMap_eq_nil]
    intro a ha
    have hfind : predictions.find? (fun p => p.ds == a.ds) = none := by
      rw [List.find?_eq_none]
      intro p hp
      simp only [beq_iff_eq]
      exact fun e => h a ha p hp e.symm
    rw [hfind]
    rfl
  simp only [evaluateModel]
  rw [hmerged]
  simp

/-- Unfolding equation for the simulator on a nonempty history. -/
lemma simulateProphetForecast_cons (first : SalesRecord) (rest : List SalesRecord) (n : ℕ) :
    simulateProphetForecast (first :: rest) n =
      some (((List.range n).map
          (fun (i : ℕ) => (lastRecordOf first rest).ds + 1 + (i : Int))).map
        (forecastRecord (first :: rest) (lastRecordOf first rest))) := rfl

/-- The DateKeys of the simulator's output are the `n` days immediately
after the last historical date. -/
lemma simulate_map_ds (first : SalesRecord) (rest : List SalesRecord) (n : ℕ) :
    ∃ l, simulateProphetForecast (first :: rest) n = some l ∧
      l.map ForecastRecord.ds =
        (List.range n).map (fun (i : ℕ) => (lastRecordOf first rest).ds + 1 + (i : Int)) := by
  refine ⟨_, simulateProphetForecast_cons first rest n, ?_⟩
  have hcomp : (ForecastRecord.ds ∘
      forecastRecord (first :: rest) (lastRecordOf first rest)) = id := by
    funext d
    rfl
  rw [List.map_map, hcomp, List.map_id]

/-- In every simulated record the lower bound is at most the prediction. -/
lemma forecastRecord_lower_le_yhat (hist : List SalesRecord) (lastRec : SalesRecord)
    (d : Int) :
    (forecastRecord hist lastRec d).yhat_lower ≤ (forecastRecord hist lastRec d).yhat := by
  simp only [forecastRecord]
  exact max_le_max le_rfl (jsRound_mono (by linarith))

/-- In every simulated record with a non-negative upper bound the
prediction is at most the upper bound. -/
lemma forecastRecord_yhat_le_upper (hist : List SalesRecord) (lastRec : SalesRecord)
    (d : Int) (h : 0 ≤ (forecastRecord hist lastRec d).yhat_upper) :
    (forecastRecord hist lastRec d).yhat ≤ (forecastRecord hist lastRec d).yhat_upper := by
  simp only [forecastRecord] at h ⊢
  have h5 : jsRound (yhatRaw hist lastRec d + 5) = jsRound (yhatRaw hist lastRec d) + 5 := by
    have hh := jsRound_add_intCast (yhatRaw hist lastRec d) 5
    simpa using hh
  rw [h5] at h ⊢
  exact max_le h (by omega)

/-! ### Claim theorems -/

/-- Claim C7: for every valid date pair with `startDate ≤ endDate`, the
series generator returns exactly `daysBetween(startDate, endDate) + 1`
records, the record at index `i` carries the DateKey `startDate + i`
(hence DateKeys are strictly consecutive, one calendar day apart, with
no gaps or duplicates), and every record has `actualSales ≥ 0`. -/
theorem generator_count_consecutive_nonneg (s e : Int) (ν : ℕ → ℝ) (h : s ≤ e) :
    (generateSyntheticSalesData s e ν).length = (e - s).toNat + 1 ∧
    (∀ (i : ℕ) (hi : i < (generateSyntheticSalesData s e ν).length),
      ((generateSyntheticSalesData s e ν).get ⟨i, hi⟩).ds = s + (i : Int)) ∧
    (∀ r ∈ generateSyntheticSalesData s e ν, 0 ≤ r.y) := by
  refine ⟨?_, ?_, ?_⟩
  · simp only [generateSyntheticSalesData, List.length_map, List.length_range]
    omega
  · intro i hi
    simp only [generateSyntheticSalesData, List.get_map, List.get_range]
  · intro r hr
    simp only [generateSyntheticSalesData, List.mem_map] at hr
    obtain ⟨i, _, rfl⟩ := hr
    exact le_max_left _ _

/-- Witness for C7 at the concrete two-day range `[0, 1]`. -/
theorem generator_count_consecutive_nonneg_witness :
    (0 : Int) ≤ 1 ∧
      (generateSyntheticSalesData 0 1 (fun _ => 0)).length = ((1 : Int) - 0).toNat + 1 :=
  ⟨by norm_num, (generator_count_consecutive_nonneg 0 1 (fun _ => 0) (by norm_num)).1⟩

/-- Claim C4 counterexample: for the inverted range `startDate = day 1 >
endDate = day 0` the generator does not fail at all — it returns the
empty sequence (the source has no `InvalidRangeError` and no validation;
the date loop simply never executes). -/
theorem generator_inverted_range_counterexample :
    generateSyntheticSalesData 1 0 (fun _ => 0) = [] := by
  simp [generateSyntheticSalesData]

/-- Claim C4 (amended): for every pair of dates with `startDate > endDate`
the series generator returns the empty sequence rather than failing. -/
theorem generator_inverted_range_empty (s e : Int) (ν : ℕ → ℝ) (h : e < s) :
    generateSyntheticSalesData s e ν = [] := by
  have h0 : (e - s + 1).toNat = 0 := by omega
  simp [generateSyntheticSalesData, h0]

/-- Witness for the amended C4 at the concrete inverted range `(1, 0)`. -/
theorem generator_inverted_range_empty_witness :
    (0 : Int) < 1 ∧ generateSyntheticSalesData 1 0 (fun _ => 1) = [] :=
  ⟨by norm_num, generator_inverted_range_empty 1 0 (fun _ => 1) (by norm_num)⟩

/-- Claim C5: for every `horizonDays > 0`, the forecast simulator fails on
an empty history (the source dereferences the missing last record, which
throws; modelled as `none`). -/
theorem simulate_empty_history_fails (n : ℕ) (h : 0 < n) :
    simulateProphetForecast [] n = none := rfl

/-- Witness for C5 at horizon 1. -/
theorem simulate_empty_history_fails_witness :
    0 < 1 ∧ simulateProphetForecast [] 1 = none :=
  ⟨Nat.one_pos, simulate_empty_history_fails 1 Nat.one_pos⟩

/-- Claim C9: for every pair of sequences whose inner join on DateKey is
empty, `evaluateModel` returns `{mae := 0, rmse := 0}` and does not fail. -/
theorem evaluate_no_overlap_returns_zero (actuals : List SalesRecord)
    (predictions : List ForecastRecord)
    (h : ∀ a ∈ actuals, ∀ p ∈ predictions, a.ds ≠ p.ds) :
    evaluateModel actuals predictions = ⟨0, 0⟩ :=
  evaluateModel_of_disjoint actuals predictions h

/-- Witness for C9 on a concrete non-overlapping pair of one-record
sequences (actual on day 0, prediction on day 1). -/
theorem evaluate_no_overlap_returns_zero_witness :
    evaluateModel [⟨0, 100⟩] [⟨1, 90, 85, 95, 90, 0, 0⟩] = ⟨0, 0⟩ :=
  evaluate_no_overlap_returns_zero _ _ (by simp)

/-- Claim C6 counterexample: for `safetyFactor = -1/2 < 0` the inventory
planner does not fail — the source has no `InvalidFactorError` and no
validation; it returns a recommendation (here `50`, below the predicted
`100`). -/
theorem inventory_negative_factor_counterexample :
    calculateInventoryRecommendations [⟨0, 100, 95, 105, 100, 0, 0⟩] (-(1/2)) =
      [⟨0, 100, 50⟩] := by
  simp only [calculateInventoryRecommendations, List.map_cons, List.map_nil]
  have he : (((⟨0, 100, 95, 105, 100, 0, 0⟩ : ForecastRecord).yhat : ℝ)
      + ((⟨0, 100, 95, 105, 100, 0, 0⟩ : ForecastRecord).yhat : ℝ) * (-(1/2)))
      = ((50 : Int) : ℝ) := by
    norm_num
  rw [he, jsRound_intCast]

/-- Claim C6 (amended): the inventory planner performs no validation of
`safetyFactor`; for every negative factor it still returns one
recommendation per forecast record, and whenever `predictedSales ≥ 0`
the recommended stock is at most `predictedSales` (a buffer in the wrong
direction) instead of any failure being raised. -/
theorem inventory_negative_factor_no_failure (forecasts : List ForecastRecord) (f : ℝ)
    (hf : f < 0) :
    (calculateInventoryRecommendations forecasts f).length = forecasts.length ∧
    ∀ rec ∈ calculateInventoryRecommendations forecasts f,
      0 ≤ rec.yhat → rec.recommended_inventory ≤ rec.yhat := by
  constructor
  · simp [calculateInventoryRecommendations]
  · intro rec hrec hy
    simp only [calculateInventoryRecommendations, List.mem_map] at hrec
    obtain ⟨g, hg, rfl⟩ := hrec
    simp only at hy ⊢
    have h0 : (0 : ℝ) ≤ (g.yhat : ℝ) := by exact_mod_cast hy
    have hle : ((g.yhat : ℝ) + (g.yhat : ℝ) * f) ≤ ((g.yhat : Int) : ℝ) := by nlinarith
    have hr := jsRound_mono hle
    rwa [jsRound_intCast] at hr

/-- Witness for the amended C6 at factor `-1/2` on a one-record forecast. -/
theorem inventory_negative_factor_no_failure_witness :
    (-(1/2) : ℝ) < 0 ∧
    (calculateInventoryRecommendations [⟨0, 100, 95, 105, 100, 0, 0⟩] (-(1/2))).length = 1 := by
  refine ⟨by norm_num, ?_⟩
  have h := (inventory_negative_factor_no_failure [⟨0, 100, 95, 105, 100, 0, 0⟩]
    (-(1/2)) (by norm_num)).1
  simpa using h

/-- Claim C8: for forecasts with non-negative `predictedSales`, the
inventory planner is monotonic in the safety factor: with `0 ≤ f1 ≤ f2`,
the recommendation at every position under `f2` is at least the one
under `f1`. -/
theorem inventory_monotone_in_factor (forecasts : List ForecastRecord) (f1 f2 : ℝ)
    (hy : ∀ r ∈ forecasts, 0 ≤ r.yhat) (h0 : 0 ≤ f1) (h12 : f1 ≤ f2) (i : ℕ)
    (hi : i < forecasts.length) :
    ((calculateInventoryRecommendations forecasts f1).getD i default).recommended_inventory ≤
    ((calculateInventoryRecommendations forecasts f2).getD i default).recommended_inventory := by
  have hi1 : i < (calculateInventoryRecommendations forecasts f1).length := by
    simpa [calculateInventoryRecommendations] using hi
  have hi2 : i < (calculateInventoryRecommendations forecasts f2).length := by
    simpa [calculateInventoryRecommendations] using hi
  rw [List.getD_eq_getElem _ _ hi1, List.getD_eq_getElem _ _ hi2]
  simp only [calculateInventoryRecommendations, List.getElem_map]
  have hymem : 0 ≤ forecasts[i].yhat := hy _ (List.getElem_mem hi)
  have hcast : (0 : ℝ) ≤ (forecasts[i].yhat : ℝ) := by exact_mod_cast hymem
  exact jsRound_mono (by nlinarith)

/-- Witness for C8 on a one-record forecast with factors `0 ≤ 1/5`. -/
theorem inventory_monotone_in_factor_witness :
    ((calculateInventoryRecommendations [⟨0, 100, 95, 105, 100, 0, 0⟩] 0).getD 0
        default).recommended_inventory ≤
    ((calculateInventoryRecommendations [⟨0, 100, 95, 105, 100, 0, 0⟩] (1/5)).getD 0
        default).recommended_inventory :=
  inventory_monotone_in_factor _ 0 (1/5) (by simp) le_rfl (by norm_num) 0 (by simp)

/-- Claim C3 counterexample: the invariant `lowerBound ≤ predictedSales ≤
upperBound` does not hold for every forecast record.  For the two-day
declining history `[(day 0, 1000), (day 1, 0)]` and horizon 1 the raw
prediction is at most `-25` (trend `-50`, yearly at most `10`, weekly
`15`), so `upperBound = round(raw + 5) ≤ -20` is negative while
`predictedSales = max(0, round(raw))` is clamped at `0`. -/
theorem forecast_bounds_counterexample :
    ¬ (∀ (hist : List SalesRecord) (n : ℕ) (l : List ForecastRecord),
        simulateProphetForecast hist n = some l →
        ∀ r ∈ l, r.yhat_lower ≤ r.yhat ∧ r.yhat ≤ r.yhat_upper) := by
  intro hall
  have hsim : simulateProphetForecast [⟨0, 1000⟩, ⟨1, 0⟩] 1 =
      some [forecastRecord [⟨0, 1000⟩, ⟨1, 0⟩] ⟨1, 0⟩ 2] := by
    rfl
  have hmem := (hall _ _ _ hsim _ (List.mem_singleton.mpr rfl)).2
  have hsin : yearlySeasonalityAt 2 ≤ 10 := by
    unfold yearlySeasonalityAt
    nlinarith [Real.sin_le_one ((dayOfYear 2 : ℝ) * (2 * Real.pi / 365))]
  have hdw : dayOfWeek 2 = 6 := by decide
  have hw : weeklySeasonalityAt 2 = 15 := by
    unfold weeklySeasonalityAt
    rw [hdw]
    norm_num
  have ht : simulatedTrendRaw [⟨0, 1000⟩, ⟨1, 0⟩] ⟨1, 0⟩ 2 = -50 := by
    unfold simulatedTrendRaw historicalTrendEnd
    norm_num [List.headI]
  have hyr : yhatRaw [⟨0, 1000⟩, ⟨1, 0⟩] ⟨1, 0⟩ 2 + 5 ≤ ((-20 : Int) : ℝ) := by
    unfold yhatRaw
    rw [ht, hw]
    push_cast
    linarith
  have h20 : (forecastRecord [⟨0, 1000⟩, ⟨1, 0⟩] ⟨1, 0⟩ 2).yhat_upper ≤ -20 := by
    show jsRound (yhatRaw [⟨0, 1000⟩, ⟨1, 0⟩] ⟨1, 0⟩ 2 + 5) ≤ -20
    have hm := jsRound_mono hyr
    rwa [jsRound_intCast] at hm
  have hy : 0 ≤ (forecastRecord [⟨0, 1000⟩, ⟨1, 0⟩] ⟨1, 0⟩ 2).yhat := le_max_left _ _
  omega

/-- Claim C3 (amended): for every forecast record produced by the
simulator, `lowerBound ≤ predictedSales` holds unconditionally, and
`predictedSales ≤ upperBound` holds whenever `upperBound` is
non-negative (it fails exactly when the raw prediction is so negative
that `upperBound < 0 ≤ predictedSales`). -/
theorem forecast_bounds_amended (hist : List SalesRecord) (n : ℕ)
    (l : List ForecastRecord) (hl : simulateProphetForecast hist n = some l)
    (r : ForecastRecord) (hr : r ∈ l) :
    r.yhat_lower ≤ r.yhat ∧ (0 ≤ r.yhat_upper → r.yhat ≤ r.yhat_upper) := by
  cases hist with
  | nil => simp [simulateProphetForecast] at hl
  | cons first rest =>
    rw [simulateProphetForecast_cons] at hl
    obtain rfl := Option.some.inj hl
    obtain ⟨d, hd, rfl⟩ := List.mem_map.mp hr
    exact ⟨forecastRecord_lower_le_yhat _ _ d,
      fun h => forecastRecord_yhat_le_upper _ _ d h⟩

/-- Witness for the amended C3 on the single-record history `[(day 0, 100)]`
with horizon 1. -/
theorem forecast_bounds_amended_witness :
    (forecastRecord [⟨0, 100⟩] ⟨0, 100⟩ 1).yhat_lower ≤
        (forecastRecord [⟨0, 100⟩] ⟨0, 100⟩ 1).yhat ∧
      (0 ≤ (forecastRecord [⟨0, 100⟩] ⟨0, 100⟩ 1).yhat_upper →
        (forecastRecord [⟨0, 100⟩] ⟨0, 100⟩ 1).yhat ≤
          (forecastRecord [⟨0, 100⟩] ⟨0, 100⟩ 1).yhat_upper) :=
  forecast_bounds_amended [⟨0, 100⟩] 1 [forecastRecord [⟨0, 100⟩] ⟨0, 100⟩ 1]
    (by rfl)
    _ (List.mem_singleton.mpr rfl)

/-- Core of the back-test analysis: when no historical DateKey exceeds
the last record's DateKey, the back-test output lies strictly after the
history and the evaluation is `{0, 0}`. -/
lemma backtest_disjoint_core (first : SalesRecord) (rest : List SalesRecord)
    (hmono : ∀ r ∈ first :: rest, r.ds ≤ (lastRecordOf first rest).ds) :
    ∃ l, simulateProphetForecast (first :: rest) (first :: rest).length = some l ∧
      (∀ r ∈ l, (lastRecordOf first rest).ds < r.ds) ∧
      evaluateModel (first :: rest) l = ⟨0, 0⟩ := by
  refine ⟨_, simulateProphetForecast_cons first rest _, ?_, ?_⟩
  · intro r hr
    obtain ⟨d, hd, rfl⟩ := List.mem_map.mp hr
    obtain ⟨i, hi, rfl⟩ := List.mem_map.mp hd
    show (lastRecordOf first rest).ds < (lastRecordOf first rest).ds + 1 + (i : Int)
    omega
  · apply evaluateModel_of_disjoint
    intro a ha p hp
    obtain ⟨d, hd, rfl⟩ := List.mem_map.mp hp
    obtain ⟨i, hi, rfl⟩ := List.mem_map.mp hd
    have h1 := hmono a ha
    show a.ds ≠ (lastRecordOf first rest).ds + 1 + (i : Int)
    omega

/-- The last record of a list of a given shape, as `getLast` of any equal
list. -/
lemma lastRecordOf_eq_getLast (first : SalesRecord) (rest : List SalesRecord)
    (l : List SalesRecord) (hl : l ≠ []) (he : first :: rest = l) :
    lastRecordOf first rest = l.getLast hl := by
  subst he
  rfl

/-- The last element of a map over `List.range n`. -/
lemma getLast_map_range {α : Type} (f : ℕ → α) (n : ℕ)
    (h : (List.range n).map f ≠ []) :
    ((List.range n).map f).getLast h = f (n - 1) := by
  rw [List.getLast_eq_get]
  simp only [List.get_eq_getElem, List.length_map, List.length_range, List.getElem_map,
    List.getElem_range]

/-- In any generated series, every DateKey is at most the DateKey of the
last record (the generated DateKeys are increasing). -/
lemma generate_ds_le_last (s e : Int) (ν : ℕ → ℝ) (first : SalesRecord)
    (rest : List SalesRecord)
    (hgen : generateSyntheticSalesData s e ν = first :: rest) :
    ∀ r ∈ first :: rest, r.ds ≤ (lastRecordOf first rest).ds := by
  have key : ∀ (n : ℕ) (g : ℕ → SalesRecord),
      (∀ i, (g i).ds = s + (i : Int)) →
      (List.range n).map g = first :: rest →
      ∀ r ∈ first :: rest, r.ds ≤ (lastRecordOf first rest).ds := by
    intro n g hg hmap r hr
    rw [← hmap] at hr
    obtain ⟨i, hi, rfl⟩ := List.mem_map.mp hr
    rw [List.mem_range] at hi
    have hne : (List.range n).map g ≠ [] := by
      rw [hmap]
      exact List.cons_ne_nil first rest
    have hlast : lastRecordOf first rest = g (n - 1) := by
      rw [lastRecordOf_eq_getLast first rest _ hne hmap.symm, getLast_map_range]
    rw [hlast, hg, hg]
    omega
  exact key ((e - s + 1).toNat) _ (fun i => rfl) hgen

/-- Claim C2: for every non-empty generated historical series — whatever
the range and the noise — the back-test invocation
`simulateProphetForecast(historical, historical.length)` produces only
records dated strictly after the last historical DateKey, so the inner
join performed by `evaluateModel` is empty and the reported MAE and RMSE
are both exactly 0. -/
theorem backtest_disjoint_and_zero_metrics (s e : Int) (ν : ℕ → ℝ)
    (first : SalesRecord) (rest : List SalesRecord)
    (hgen : generateSyntheticSalesData s e ν = first :: rest) :
    ∃ l, simulateProphetForecast (first :: rest) (first :: rest).length = some l ∧
      (∀ r ∈ l, (lastRecordOf first rest).ds < r.ds) ∧
      evaluateModel (first :: rest) l = ⟨0, 0⟩ :=
  backtest_disjoint_core first rest (generate_ds_le_last s e ν first rest hgen)

/-- Witness for C2 on the generated single-day series at range `[0, 0]`
with zero noise. -/
theorem backtest_disjoint_and_zero_metrics_witness :
    ∃ l, simulateProphetForecast (generateSyntheticSalesData 0 0 (fun _ => 0))
        (generateSyntheticSalesData 0 0 (fun _ => 0)).length = some l ∧
      evaluateModel (generateSyntheticSalesData 0 0 (fun _ => 0)) l = ⟨0, 0⟩ := by
  cases hg : generateSyntheticSalesData 0 0 (fun _ => 0) with
  | nil =>
      have hlen := congrArg List.length hg
      simp [generateSyntheticSalesData] at hlen
  | cons a t =>
      obtain ⟨l, hl, _, hev⟩ := backtest_disjoint_and_zero_metrics 0 0 (fun _ => 0) a t hg
      exact ⟨l, hl, hev⟩

/-- Claim C1 evidence: the back-test is NOT aligned to the historical
span.  For the generated single-day series at the range `[0, 0]`, the
historical DateKeys are `[0]` while the back-test invocation
`simulateProphetForecast(historical, historical.length)` yields records
with DateKeys `[1]` — the day after the history, not the history
itself. -/
theorem backtest_not_aligned_to_history :
    (generateSyntheticSalesData 0 0 (fun _ => 0)).map SalesRecord.ds = [0] ∧
    ∃ l, simulateProphetForecast (generateSyntheticSalesData 0 0 (fun _ => 0))
        (generateSyntheticSalesData 0 0 (fun _ => 0)).length = some l ∧
      l.map ForecastRecord.ds = [1] := by
  have hlen : (generateSyntheticSalesData 0 0 (fun _ => 0)).length = 1 := by
    simp [generateSyntheticSalesData]
  have hds : (generateSyntheticSalesData 0 0 (fun _ => 0)).map SalesRecord.ds = [0] := by
    simp [generateSyntheticSalesData, List.range_succ]
  obtain ⟨r, hr⟩ := List.length_eq_one.mp hlen
  have hrds : r.ds = 0 := by
    have h2 := hds
    rw [hr] at h2
    simpa using h2
  refine ⟨hds, ?_⟩
  rw [hr]
  obtain ⟨l, hl, hmap⟩ := simulate_map_ds r [] 1
  refine ⟨l, hl, ?_⟩
  rw [hmap]
  simp [lastRecordOf, hrds, List.range_succ]

/-- Claim C10: for the single-record history `[(2024-01-01, 100)]` and
horizon 1, the simulator yields exactly one record, dated 2024-01-02;
the trend slope is 0 (degenerate single-record case), the raw simulated
trend is 100, the record's trend component is 100, and the predicted
sales equal `round(max(0, 100 + yearly + weekly))` evaluated at
2024-01-02. -/
theorem single_day_history_forecast :
    ∃ r, simulateProphetForecast [⟨daysFromCivil 2024 1 1, 100⟩] 1 = some [r] ∧
      r.ds = daysFromCivil 2024 1 2 ∧
      historicalTrendEnd [⟨daysFromCivil 2024 1 1, 100⟩]
        ⟨daysFromCivil 2024 1 1, 100⟩ = 0 ∧
      simulatedTrendRaw [⟨daysFromCivil 2024 1 1, 100⟩]
        ⟨daysFromCivil 2024 1 1, 100⟩ (daysFromCivil 2024 1 2) = 100 ∧
      r.trend = 100 ∧
      r.yhat = jsRound (max 0 ((100 : ℝ) + yearlySeasonalityAt (daysFromCivil 2024 1 2)
        + weeklySeasonalityAt (daysFromCivil 2024 1 2))) := by
  have hslope : historicalTrendEnd [⟨daysFromCivil 2024 1 1, 100⟩]
      ⟨daysFromCivil 2024 1 1, 100⟩ = 0 := by
    unfold historicalTrendEnd
    norm_num
  have htrend : ∀ d : Int, simulatedTrendRaw [⟨daysFromCivil 2024 1 1, 100⟩]
      ⟨daysFromCivil 2024 1 1, 100⟩ d = 100 := by
    intro d
    unfold simulatedTrendRaw
    rw [hslope]
    norm_num
  have hsim : simulateProphetForecast [⟨daysFromCivil 2024 1 1, 100⟩] 1 =
      some [forecastRecord [⟨daysFromCivil 2024 1 1, 100⟩]
        ⟨daysFromCivil 2024 1 1, 100⟩ (daysFromCivil 2024 1 2)] := rfl
  refine ⟨_, hsim, rfl, hslope, htrend _, ?_, ?_⟩
  · show jsRound (simulatedTrendRaw _ _ _) = 100
    rw [htrend]
    have h100 : ((100 : Int) : ℝ) = (100 : ℝ) := by norm_num
    rw [← h100, jsRound_intCast]
  · show max 0 (jsRound (yhatRaw _ _ _)) = _
    rw [← jsRound_max_zero]
    congr 1
    unfold yhatRaw
    rw [htrend]

end SalesDash
